import Mathlib

/-!
Verification development for the gesture-canvas drawing application.

The JavaScript source is shallowly embedded: JS numbers are modelled as
exact rationals (`ℚ`), JS objects as structures, mutation as explicit
state passing, and JS exceptions as `Except Unit`.  Two systematic
modelling conventions are used throughout:

* `Math.sqrt` appears in the source only inside comparisons of the form
  `distance(p, q) <op> c` with `c ≥ 0`; every such comparison is embedded
  as the equivalent comparison of squared distances
  (`sqrt a < c ↔ a < c²` for `a, c ≥ 0`), keeping everything in `ℚ`.
* `Utils.generateId()` (timestamp + randomness in JS, fresh on every
  call) is modelled by an explicit counter threaded through every
  operation that constructs elements; each construction consumes the
  current counter value as the new id.
-/

namespace GestureCanvas

/-- A 2-D point (JS `{x, y}`). -/
structure Pt where
  x : ℚ
  y : ℚ
  deriving DecidableEq, Repr

/-- A 3-D hand landmark (JS `{x, y, z}`). -/
structure Pt3 where
  x : ℚ
  y : ℚ
  z : ℚ
  deriving DecidableEq, Repr

/-- Squared distance between two 2-D points.  `Utils.distance` is
`sqrt(dx*dx + dy*dy)`; all its uses are comparisons against nonnegative
constants, embedded via squares. -/
def distSq (p q : Pt) : ℚ :=
  (q.x - p.x) ^ 2 + (q.y - p.y) ^ 2

/-- Squared distance between two landmarks.  `Utils.distance` only reads
the `x` and `y` fields, also for 3-D landmarks. -/
def distSq3 (p q : Pt3) : ℚ :=
  (q.x - p.x) ^ 2 + (q.y - p.y) ^ 2

/-- `Utils.clamp(value, min, max) = Math.min(Math.max(value, min), max)`. -/
def clamp (value lo hi : ℚ) : ℚ :=
  min (max value lo) hi

/-- `Utils.pointInRect(point, rect)`. -/
def pointInRect (p : Pt) (rx ry rw rh : ℚ) : Bool :=
  decide (rx ≤ p.x) && decide (p.x ≤ rx + rw) &&
  decide (ry ≤ p.y) && decide (p.y ≤ ry + rh)

/-- `Utils.getBounds(p1, p2)`: bounding box of two points, as
`(x, y, width, height)`. -/
def getBoundsQ (p1 p2 : Pt) : ℚ × ℚ × ℚ × ℚ :=
  (min p1.x p2.x, min p1.y p2.y, |p2.x - p1.x|, |p2.y - p1.y|)

/-- JS `a || b` for a possibly-absent number field: `undefined` and `0`
are falsy, every other number is truthy. -/
def jsOrQ (o : Option ℚ) (d : ℚ) : ℚ :=
  match o with
  | none => d
  | some v => if v = 0 then d else v

/-- JS `a || b` for a possibly-absent string field: `undefined` and the
empty string are falsy. -/
def jsOrS (o : Option String) (d : String) : String :=
  match o with
  | none => d
  | some s => if s = "" then d else s

/-- JS `options.points || []`: an array is truthy even when empty, so
only `undefined` falls back to the default. -/
def jsOrPts (o : Option (List Pt)) : List Pt :=
  o.getD []

/-- The float value of JS `Math.PI` (the IEEE-754 double closest to π),
as an exact rational. -/
def jsPI : ℚ :=
  (884279719003555 : ℚ) / 281474976710656

/-- Per-type payload of a drawable element.  Mirrors the subclasses of
`Element` in `elements.js`: `Rectangle` stores a corner radius, `Line`
its endpoints, `Arrow` endpoints plus arrowhead parameters,
`FreehandPath` its point list. -/
inductive ElKind where
  | element
  | rectangle (cornerRadius : ℚ)
  | circle
  | line (startX startY endX endY : ℚ)
  | arrow (startX startY endX endY headLength headAngle : ℚ)
  | freehand (points : List Pt)
  deriving DecidableEq, Repr

/-- A drawable element: the common fields of the `Element` base class
plus the per-type payload. -/
structure El where
  id : Nat
  ty : String
  x : ℚ
  y : ℚ
  width : ℚ
  height : ℚ
  rotation : ℚ
  strokeColor : String
  fillColor : String
  strokeWidth : ℚ
  opacity : ℚ
  selected : Bool
  locked : Bool
  kind : ElKind
  deriving DecidableEq, Repr

/-- The `options` object passed to element constructors, and equally the
JSON record produced by `toJSON` (every field optional; `undefined`
modelled as `none`).  `oid` is the serialized `id`, which the
constructors never read. -/
structure Opts where
  oid : Option Nat
  oty : Option String
  x : Option ℚ
  y : Option ℚ
  width : Option ℚ
  height : Option ℚ
  rotation : Option ℚ
  strokeColor : Option String
  fillColor : Option String
  strokeWidth : Option ℚ
  opacity : Option ℚ
  cornerRadius : Option ℚ
  startX : Option ℚ
  startY : Option ℚ
  endX : Option ℚ
  endY : Option ℚ
  headLength : Option ℚ
  headAngle : Option ℚ
  points : Option (List Pt)
  deriving DecidableEq, Repr

/-- An `options` object with every field absent. -/
def noOpts : Opts :=
  ⟨none, none, none, none, none, none, none, none, none, none, none,
   none, none, none, none, none, none, none, none⟩

/-- The `Element` base-class constructor: `this.id = Utils.generateId()`
(the fresh counter value `c`), every other field from `options` with the
source's `||` defaults; `selected` and `locked` start `false`. -/
def mkBase (o : Opts) (c : Nat) : El where
  id := c
  ty := "element"
  x := jsOrQ o.x 0
  y := jsOrQ o.y 0
  width := jsOrQ o.width 0
  height := jsOrQ o.height 0
  rotation := jsOrQ o.rotation 0
  strokeColor := jsOrS o.strokeColor "#1e1e1e"
  fillColor := jsOrS o.fillColor "transparent"
  strokeWidth := jsOrQ o.strokeWidth 4
  opacity := jsOrQ o.opacity 1
  selected := false
  locked := false
  kind := ElKind.element

/-- `Line.updateBounds` (also used by `Arrow`): recompute `x`, `y`,
`width`, `height` from the endpoints. -/
def lineUpdateBounds (e : El) : El :=
  match e.kind with
  | ElKind.line sx sy ex ey =>
      { e with x := min sx ex, y := min sy ey, width := |ex - sx|, height := |ey - sy| }
  | ElKind.arrow sx sy ex ey _ _ =>
      { e with x := min sx ex, y := min sy ey, width := |ex - sx|, height := |ey - sy| }
  | _ => e

/-- Minimum of the x-coordinates of a nonempty point list (the loop of
`FreehandPath.updateBounds`, started from the first point). -/
def ptsMinX (p : Pt) (ps : List Pt) : ℚ := ps.foldl (fun a q => min a q.x) p.x

/-- Minimum of the y-coordinates, as in `FreehandPath.updateBounds`. -/
def ptsMinY (p : Pt) (ps : List Pt) : ℚ := ps.foldl (fun a q => min a q.y) p.y

/-- Maximum of the x-coordinates, as in `FreehandPath.updateBounds`. -/
def ptsMaxX (p : Pt) (ps : List Pt) : ℚ := ps.foldl (fun a q => max a q.x) p.x

/-- Maximum of the y-coordinates, as in `FreehandPath.updateBounds`. -/
def ptsMaxY (p : Pt) (ps : List Pt) : ℚ := ps.foldl (fun a q => max a q.y) p.y

/-- `FreehandPath.updateBounds`: with no points it returns immediately,
otherwise it sets the bounds to the points' bounding box. -/
def fhUpdateBounds (e : El) : El :=
  match e.kind with
  | ElKind.freehand pts =>
      match pts with
      | [] => e
      | p :: ps =>
          { e with x := ptsMinX p ps, y := ptsMinY p ps,
                   width := ptsMaxX p ps - ptsMinX p ps,
                   height := ptsMaxY p ps - ptsMinY p ps }
  | _ => e

/-- The `Rectangle` constructor. -/
def mkRectangle (o : Opts) (c : Nat) : El :=
  { mkBase o c with ty := "rectangle", kind := ElKind.rectangle (jsOrQ o.cornerRadius 0) }

/-- The `Circle` constructor. -/
def mkCircle (o : Opts) (c : Nat) : El :=
  { mkBase o c with ty := "circle", kind := ElKind.circle }

/-- The `Line` constructor: `startX = options.startX || options.x || 0`,
`endX = options.endX || this.startX` (and likewise for y), then
`updateBounds()`. -/
def mkLine (o : Opts) (c : Nat) : El :=
  let sx := jsOrQ o.startX (jsOrQ o.x 0)
  let sy := jsOrQ o.startY (jsOrQ o.y 0)
  let ex := jsOrQ o.endX sx
  let ey := jsOrQ o.endY sy
  lineUpdateBounds { mkBase o c with ty := "line", kind := ElKind.line sx sy ex ey }

/-- The `Arrow` constructor: the `Line` constructor, then
`headLength = options.headLength || 15`,
`headAngle = options.headAngle || Math.PI / 6`. -/
def mkArrow (o : Opts) (c : Nat) : El :=
  let l := mkLine o c
  { l with ty := "arrow",
           kind := match l.kind with
             | ElKind.line sx sy ex ey =>
                 ElKind.arrow sx sy ex ey (jsOrQ o.headLength 15) (jsOrQ o.headAngle (jsPI / 6))
             | k => k }

/-- The `FreehandPath` constructor: `points = options.points || []`, and
`updateBounds()` only when the list is nonempty. -/
def mkFreehand (o : Opts) (c : Nat) : El :=
  let pts := jsOrPts o.points
  let e := { mkBase o c with ty := "freehand", kind := ElKind.freehand pts }
  if pts.isEmpty then e else fhUpdateBounds e

/-- The base `Element.toJSON`: the common fields, type-specific fields
absent. -/
def baseJSON (e : El) : Opts :=
  { noOpts with
      oid := some e.id, oty := some e.ty,
      x := some e.x, y := some e.y,
      width := some e.width, height := some e.height,
      rotation := some e.rotation,
      strokeColor := some e.strokeColor, fillColor := some e.fillColor,
      strokeWidth := some e.strokeWidth, opacity := some e.opacity }

/-- `toJSON`, per element type: the base record plus the subclass's
extra fields. -/
def toJSON (e : El) : Opts :=
  match e.kind with
  | ElKind.element => baseJSON e
  | ElKind.rectangle cr => { baseJSON e with cornerRadius := some cr }
  | ElKind.circle => baseJSON e
  | ElKind.line sx sy ex ey =>
      { baseJSON e with startX := some sx, startY := some sy, endX := some ex, endY := some ey }
  | ElKind.arrow sx sy ex ey hl ha =>
      { baseJSON e with startX := some sx, startY := some sy, endX := some ex, endY := some ey,
                        headLength := some hl, headAngle := some ha }
  | ElKind.freehand pts => { baseJSON e with points := some pts }

/-- `Element.fromJSON(data)`: dispatch on `data.type`; the default
branch builds a base `Element`.  `c` is the fresh id consumed by the
constructor (`data.id` is never read). -/
def fromJSON (o : Opts) (c : Nat) : El :=
  match o.oty with
  | some "rectangle" => mkRectangle o c
  | some "circle" => mkCircle o c
  | some "line" => mkLine o c
  | some "arrow" => mkArrow o c
  | some "freehand" => mkFreehand o c
  | _ => mkBase o c

/-- `move(dx, dy)`: the base class shifts `x`, `y`; `Line`/`Arrow`
shift the endpoints and recompute bounds; `FreehandPath` shifts every
point and recomputes bounds (so an empty path does not move at all). -/
def elMove (e : El) (dx dy : ℚ) : El :=
  match e.kind with
  | ElKind.element => { e with x := e.x + dx, y := e.y + dy }
  | ElKind.rectangle _ => { e with x := e.x + dx, y := e.y + dy }
  | ElKind.circle => { e with x := e.x + dx, y := e.y + dy }
  | ElKind.line sx sy ex ey =>
      lineUpdateBounds { e with kind := ElKind.line (sx + dx) (sy + dy) (ex + dx) (ey + dy) }
  | ElKind.arrow sx sy ex ey hl ha =>
      lineUpdateBounds { e with kind := ElKind.arrow (sx + dx) (sy + dy) (ex + dx) (ey + dy) hl ha }
  | ElKind.freehand pts =>
      fhUpdateBounds { e with kind := ElKind.freehand (pts.map (fun p => ⟨p.x + dx, p.y + dy⟩)) }

/-- Squared distance from `p` to the segment `a`-`b` (the shared formula
of `Line.distanceToLine`, `FreehandPath.distanceToSegment` and the
`sqDistToSegment` helper of `Utils.simplifyPoints`): degenerate segments
fall back to point distance, otherwise the projection parameter is
clamped to `[0, 1]`. -/
def segDistSq (p a b : Pt) : ℚ :=
  let dx := b.x - a.x
  let dy := b.y - a.y
  let l2 := dx * dx + dy * dy
  if l2 = 0 then distSq p a
  else
    let t := clamp (((p.x - a.x) * dx + (p.y - a.y) * dy) / l2) 0 1
    distSq p ⟨a.x + t * dx, a.y + t * dy⟩

/-- One step of the max-distance scan inside `Utils.simplifyPoints`:
keep the farthest point (strictly farther, as in `d > maxDist`). -/
def maxSegStep (pts : List Pt) (s e : Nat) (acc : ℚ × Nat) (i : Nat) : ℚ × Nat :=
  if acc.1 < segDistSq (pts.getD i ⟨0, 0⟩) (pts.getD s ⟨0, 0⟩) (pts.getD e ⟨0, 0⟩)
  then (segDistSq (pts.getD i ⟨0, 0⟩) (pts.getD s ⟨0, 0⟩) (pts.getD e ⟨0, 0⟩), i)
  else acc

/-- The `for (let i = start + 1; i < end; i++)` scan of
`Utils.simplifyPoints` locating the point farthest from the chord. -/
def maxSeg (pts : List Pt) (s e : Nat) : ℚ × Nat :=
  (List.range' (s + 1) (e - s - 1)).foldl (maxSegStep pts s e) (0, 0)

lemma maxSeg_foldl_bounds (pts : List Pt) (s e : Nat) (l : List Nat)
    (hl : ∀ i ∈ l, s < i ∧ i < e) (acc : ℚ × Nat)
    (hacc : 0 < acc.1 → s < acc.2 ∧ acc.2 < e) :
    0 < (l.foldl (maxSegStep pts s e) acc).1 →
      s < (l.foldl (maxSegStep pts s e) acc).2 ∧ (l.foldl (maxSegStep pts s e) acc).2 < e := by
  induction l generalizing acc with
  | nil => exact hacc
  | cons a t ih =>
      refine ih (fun i hi => hl i (List.mem_cons_of_mem _ hi)) (maxSegStep pts s e acc a) ?_
      unfold maxSegStep
      split
      · intro _
        exact hl a (List.mem_cons_self _ _)
      · exact hacc

lemma maxSeg_bounds (pts : List Pt) (s e : Nat) (h : 0 < (maxSeg pts s e).1) :
    s < (maxSeg pts s e).2 ∧ (maxSeg pts s e).2 < e := by
  refine maxSeg_foldl_bounds pts s e _ ?_ (0, 0) ?_ h
  · intro i hi
    have hm := List.mem_range'_1.mp hi
    omega
  · intro h0
    exact absurd h0 (by norm_num)

/-- The recursive core of `Utils.simplifyPoints` (Ramer-Douglas-Peucker):
the JS guard `Math.sqrt(maxDist) > epsilon` is embedded as
`epsilon ^ 2 < maxDist` (equivalent since both sides of the source
comparison are nonnegative at the only call site, `epsilon = 2`);
`left.slice(0, -1).concat(right)` is `dropLast ++`. -/
def rdpAux (pts : List Pt) (eps : ℚ) (s e : Nat) : List Pt :=
  if h : eps ^ 2 < (maxSeg pts s e).1 then
    (rdpAux pts eps s (maxSeg pts s e).2).dropLast ++ rdpAux pts eps (maxSeg pts s e).2 e
  else
    [pts.getD s ⟨0, 0⟩, pts.getD e ⟨0, 0⟩]
termination_by e - s
decreasing_by
  all_goals
    have hb := maxSeg_bounds pts s e (lt_of_le_of_lt (sq_nonneg eps) h)
    omega

/-- `Utils.simplifyPoints(points, epsilon)`: short lists are returned
unchanged, otherwise the recursive simplification runs on the full index
range. -/
def simplifyPoints (pts : List Pt) (eps : ℚ) : List Pt :=
  if pts.length < 3 then pts else rdpAux pts eps 0 (pts.length - 1)

/-- `FreehandPath.simplify()`: applies `Utils.simplifyPoints(points, 2)`
only when the path has strictly more than 3 points; the bounds fields
are not recomputed. -/
def elSimplify (e : El) : El :=
  match e.kind with
  | ElKind.freehand pts =>
      if 3 < pts.length then { e with kind := ElKind.freehand (simplifyPoints pts 2) } else e
  | _ => e

/-- `FreehandPath.addPoint(x, y)`: push the point and recompute bounds. -/
def fhAddPoint (e : El) (p : Pt) : El :=
  match e.kind with
  | ElKind.freehand pts => fhUpdateBounds { e with kind := ElKind.freehand (pts ++ [p]) }
  | _ => e

/-- `containsPoint`, per element type, with every distance comparison
squared.  The ellipse test guards against a zero radius: in JS a zero
`rx`/`ry` makes the division produce `Infinity` or `NaN`, so the `≤ 1`
comparison is false. -/
def containsPt (e : El) (p : Pt) : Bool :=
  match e.kind with
  | ElKind.element => pointInRect p e.x e.y e.width e.height
  | ElKind.rectangle _ => pointInRect p e.x e.y e.width e.height
  | ElKind.circle =>
      let rx := e.width / 2
      let ry := e.height / 2
      if rx = 0 || ry = 0 then false
      else
        let cx := e.x + e.width / 2
        let cy := e.y + e.height / 2
        decide (((p.x - cx) / rx) ^ 2 + ((p.y - cy) / ry) ^ 2 ≤ 1)
  | ElKind.line sx sy ex ey => decide (segDistSq p ⟨sx, sy⟩ ⟨ex, ey⟩ ≤ 100)
  | ElKind.arrow sx sy ex ey _ _ => decide (segDistSq p ⟨sx, sy⟩ ⟨ex, ey⟩ ≤ 100)
  | ElKind.freehand pts =>
      (pts.zip pts.tail).any (fun ab => decide (segDistSq p ab.1 ab.2 ≤ 100))

/-- The viewport transform `{x, y, scale}` of `DrawingCanvas`. -/
structure Transform where
  x : ℚ
  y : ℚ
  scale : ℚ
  deriving DecidableEq, Repr

/-- `DrawingCanvas.screenToCanvas`. -/
def screenToCanvas (t : Transform) (p : Pt) : Pt :=
  ⟨(p.x - t.x) / t.scale, (p.y - t.y) / t.scale⟩

/-- `DrawingCanvas.canvasToScreen`. -/
def canvasToScreen (t : Transform) (p : Pt) : Pt :=
  ⟨p.x * t.scale + t.x, p.y * t.scale + t.y⟩

/-- `DrawingCanvas.zoom(factor, centerX, centerY)`.  Returns the new
transform and whether a `zoom` notification was emitted; when the
clamped scale equals the old one the method returns before touching any
state or emitting. -/
def zoomT (t : Transform) (factor cx cy : ℚ) : Transform × Bool :=
  if clamp (t.scale * factor) (1 / 10) 4 = t.scale then (t, false)
  else
    ({ x := cx - (cx - t.x) * (clamp (t.scale * factor) (1 / 10) 4 / t.scale),
       y := cy - (cy - t.y) * (clamp (t.scale * factor) (1 / 10) 4 / t.scale),
       scale := clamp (t.scale * factor) (1 / 10) 4 }, true)

/-- `DrawingCanvas.pan(deltaX, deltaY)`. -/
def panT (t : Transform) (dx dy : ℚ) : Transform :=
  { t with x := t.x + dx, y := t.y + dy }

/-- The scene-model part of `DrawingCanvas`: elements, selection,
transform, and the snapshot history with its cursor.  The selected
element (a JS object reference) is modelled as an index into
`elements`. -/
structure CanvasState where
  elements : List El
  selectedIdx : Option Nat
  transform : Transform
  history : List (List Opts)
  historyIndex : Int
  deriving DecidableEq, Repr

/-- The state set up by the `DrawingCanvas` constructor. -/
def initCanvas : CanvasState where
  elements := []
  selectedIdx := none
  transform := ⟨0, 0, 1⟩
  history := []
  historyIndex := -1

/-- Replace the element at index `i` (mutation of a JS object held in
the array). -/
def modifyAt (es : List El) (i : Nat) (f : El → El) : List El :=
  match es, i with
  | [], _ => []
  | e :: rest, 0 => f e :: rest
  | e :: rest, Nat.succ n => e :: modifyAt rest n f

/-- `DrawingCanvas.saveHistory()`: truncate redo states, push the
serialized scene, then either evict the oldest snapshot (cursor
unchanged) or advance the cursor. -/
def saveHistory (s : CanvasState) : CanvasState :=
  let hist := s.history.take (s.historyIndex + 1).toNat ++ [s.elements.map toJSON]
  if 50 < hist.length then { s with history := hist.drop 1 }
  else { s with history := hist, historyIndex := s.historyIndex + 1 }

/-- `DrawingCanvas.canUndo()`. -/
def canUndo (s : CanvasState) : Bool :=
  decide (0 < s.historyIndex)

/-- `DrawingCanvas.canRedo()`. -/
def canRedo (s : CanvasState) : Bool :=
  decide (s.historyIndex < (s.history.length : Int) - 1)

/-- Deserialize a snapshot, consuming one fresh id per element
(`restoreFromHistory` maps `Element.fromJSON` over the stored list). -/
def mapFromJSON (c : Nat) (os : List Opts) : Nat × List El :=
  match os with
  | [] => (c, [])
  | o :: rest =>
      ((mapFromJSON (c + 1) rest).1, fromJSON o c :: (mapFromJSON (c + 1) rest).2)

/-- `DrawingCanvas.restoreFromHistory()`: rebuild `elements` from the
snapshot under the cursor and clear the selection. -/
def restoreFromHistory (c : Nat) (s : CanvasState) : Nat × CanvasState :=
  ((mapFromJSON c (s.history.getD s.historyIndex.toNat [])).1,
   { s with elements := (mapFromJSON c (s.history.getD s.historyIndex.toNat [])).2,
            selectedIdx := none })

/-- `DrawingCanvas.undo()`: no-op unless `canUndo()`. -/
def undoC (c : Nat) (s : CanvasState) : Nat × CanvasState :=
  if canUndo s then restoreFromHistory c { s with historyIndex := s.historyIndex - 1 }
  else (c, s)

/-- `DrawingCanvas.redo()`: no-op unless `canRedo()`. -/
def redoC (c : Nat) (s : CanvasState) : Nat × CanvasState :=
  if canRedo s then restoreFromHistory c { s with historyIndex := s.historyIndex + 1 }
  else (c, s)

/-- `DrawingCanvas.addElement(element)`. -/
def addElement (s : CanvasState) (e : El) : CanvasState :=
  saveHistory { s with elements := s.elements ++ [e] }

/-- `DrawingCanvas.removeElement(element)`, with the object reference
modelled as an index: not-present (out of range) is a no-op, otherwise
splice it out, clear the selection if it was selected, and save
history.  Selection indices above the removed position shift down. -/
def removeElement (s : CanvasState) (i : Nat) : CanvasState :=
  if i < s.elements.length then
    let sel := match s.selectedIdx with
      | some j => if j = i then none else if i < j then some (j - 1) else some j
      | none => none
    saveHistory { s with elements := s.elements.eraseIdx i, selectedIdx := sel }
  else s

/-- `DrawingCanvas.clear()`. -/
def clearC (s : CanvasState) : CanvasState :=
  saveHistory { s with elements := [], selectedIdx := none }

/-- `DrawingCanvas.selectElement(element)` (with `none` playing the role
of `deselectAll`): clear the previously selected element's flag, then
set the new one's. -/
def selectElement (s : CanvasState) (oi : Option Nat) : CanvasState :=
  let es := match s.selectedIdx with
    | some j => modifyAt s.elements j (fun e => { e with selected := false })
    | none => s.elements
  match oi with
  | some i =>
      { s with elements := modifyAt es i (fun e => { e with selected := true }),
               selectedIdx := some i }
  | none => { s with elements := es, selectedIdx := none }

/-- `DrawingCanvas.getElementAt(screenX, screenY)`: convert to canvas
space and search from the top (last added) down. -/
def getElementAt (s : CanvasState) (p : Pt) : Option Nat :=
  let cp := screenToCanvas s.transform p
  (List.range s.elements.length).reverse.find?
    (fun i => containsPt (s.elements.getD i (mkBase noOpts 0)) cp)

/-- Boolean finger-extension flags, one per finger. -/
structure FingerStates where
  thumb : Bool
  index : Bool
  middle : Bool
  ring : Bool
  pinky : Bool
  deriving DecidableEq, Repr

/-- Per-frame gesture classification. -/
inductive GType where
  | idle
  | point
  | palm
  | fist
  deriving DecidableEq, Repr

/-- The per-frame result object built by `analyzeHand`/`process`
(the raw `landmarks` back-reference is not modelled). -/
structure Gesture where
  type : GType
  cursorPosition : Pt
  smoothedPosition : Pt
  isOpenPalm : Bool
  isFist : Bool
  isPointing : Bool
  isTap : Bool
  fingerStates : FingerStates
  confidence : ℚ
  deriving DecidableEq, Repr

/-- Mutable state of `GestureRecognizer`. -/
structure Rec where
  lastTapTime : ℚ
  previousGestureType : Option GType
  gestureHistory : List (GType × ℚ)
  smoothedPosition : Pt
  positionHistory : List Pt
  pointingStartTime : Option ℚ
  pointingStartPosition : Option Pt
  wasPointing : Bool
  palmPositionHistory : List Pt
  twoHandActive : Bool
  twoHandInitialDistance : Option ℚ
  deriving DecidableEq, Repr

/-- The recognizer's constructor state. -/
def rec0 : Rec where
  lastTapTime := 0
  previousGestureType := none
  gestureHistory := []
  smoothedPosition := ⟨1 / 2, 1 / 2⟩
  positionHistory := []
  pointingStartTime := none
  pointingStartPosition := none
  wasPointing := false
  palmPositionHistory := []
  twoHandActive := false
  twoHandInitialDistance := none

/-- Landmark lookup.  In JS an out-of-range index yields `undefined` and
the TypeError is raised at the first property access; every landmark
fetched in the embedded functions has a property accessed, so the fetch
itself is modelled as the failure point. -/
def getLm (l : List Pt3) (i : Nat) : Except Unit Pt3 :=
  match l.get? i with
  | some p => Except.ok p
  | none => Except.error ()

/-- One finger's `isExtended(tipIdx, pipIdx, mcpIdx)` test:
`tip.y < pip.y + 0.02` and `dist(tip, wrist) > dist(mcp, wrist) * 0.85`,
the latter embedded squared (`a > b·0.85 ↔ a² > b²·0.7225` for
nonnegative distances). -/
def isExtendedE (l : List Pt3) (ti pj mj : Nat) : Except Unit Bool := do
  let tip ← getLm l ti
  let pip ← getLm l pj
  let mcp ← getLm l mj
  let wrist ← getLm l 0
  pure (decide (tip.y < pip.y + 1 / 50) &&
        decide (distSq3 mcp wrist * (289 / 400) < distSq3 tip wrist))

/-- `GestureRecognizer.getFingerStates`: thumb extended iff
`dist(thumbTip, indexMcp) > 0.08` (squared: `> 4/625`); the other four
fingers use `isExtended` with their tip/PIP/MCP landmark indices. -/
def getFingerStatesE (l : List Pt3) : Except Unit FingerStates := do
  let thumbTip ← getLm l 4
  let indexMcp ← getLm l 5
  let thumb := decide ((4 : ℚ) / 625 < distSq3 thumbTip indexMcp)
  let index ← isExtendedE l 8 6 5
  let middle ← isExtendedE l 12 10 9
  let ring ← isExtendedE l 16 14 13
  let pinky ← isExtendedE l 20 18 17
  pure ⟨thumb, index, middle, ring, pinky⟩

/-- `calculateConfidence(landmarks)`: `z || 0` is `z` for rationals, so
the score is `max 0 (1 - variance(z) * 10)`. -/
def confid (l : List Pt3) : ℚ :=
  let n : ℚ := l.length
  let avg := (l.map Pt3.z).sum / n
  let variance := (l.map (fun p => (p.z - avg) ^ 2)).sum / n
  max 0 (1 - variance * 10)

/-- `GestureRecognizer.analyzeHand`: finger states, the mutually
exclusive gesture flags, the mirrored cursor anchor (palm center for an
open palm, index fingertip otherwise), and the priority-ordered type. -/
def analyzeHandE (l : List Pt3) : Except Unit Gesture := do
  let fs ← getFingerStatesE l
  let isOpenPalm := fs.index && fs.middle && fs.ring && fs.pinky
  let isFist := !fs.index && !fs.middle && !fs.ring && !fs.pinky
  let isPointing := fs.index && !fs.middle && !fs.ring && !fs.pinky
  let cursor ←
    if isOpenPalm then do
      let palmCenter ← getLm l 9
      pure (⟨1 - palmCenter.x, palmCenter.y⟩ : Pt)
    else do
      let indexTip ← getLm l 8
      pure (⟨1 - indexTip.x, indexTip.y⟩ : Pt)
  let ty := if isFist then GType.fist
            else if isOpenPalm then GType.palm
            else if isPointing then GType.point
            else GType.idle
  pure { type := ty, cursorPosition := cursor, smoothedPosition := ⟨0, 0⟩,
         isOpenPalm := isOpenPalm, isFist := isFist, isPointing := isPointing,
         isTap := false, fingerStates := fs, confidence := confid l }

/-- Weighted average of a position history with weights `w i` for the
i-th (0-based) entry. -/
def weightedAvg (hist : List Pt) (w : Nat → ℚ) : Pt :=
  let idx := List.range hist.length
  let tw := (idx.map w).sum
  ⟨((idx.map (fun i => (hist.getD i ⟨0, 0⟩).x * w i)).sum) / tw,
   ((idx.map (fun i => (hist.getD i ⟨0, 0⟩).y * w i)).sum) / tw⟩

/-- `GestureRecognizer.smoothPosition`: push into an 8-entry rolling
history, average with linear weights `i + 1`, lerp the stored smoothed
position toward it with factor 0.5, and scale to viewport pixels. -/
def smoothPosition (r : Rec) (raw : Pt) (w h : ℚ) : Rec × Pt :=
  let hist0 := r.positionHistory ++ [raw]
  let hist := if 8 < hist0.length then hist0.drop 1 else hist0
  let avg := weightedAvg hist (fun i => (i : ℚ) + 1)
  let sp : Pt := ⟨r.smoothedPosition.x + (avg.x - r.smoothedPosition.x) * (1 / 2),
                  r.smoothedPosition.y + (avg.y - r.smoothedPosition.y) * (1 / 2)⟩
  ({ r with positionHistory := hist, smoothedPosition := sp }, ⟨sp.x * w, sp.y * h⟩)

/-- `GestureRecognizer.smoothPalmPosition`: 12-entry history, quadratic
weights `(i + 1)²`, lerp factor 0.25. -/
def smoothPalmPosition (r : Rec) (raw : Pt) (w h : ℚ) : Rec × Pt :=
  let hist0 := r.palmPositionHistory ++ [raw]
  let hist := if 12 < hist0.length then hist0.drop 1 else hist0
  let avg := weightedAvg hist (fun i => ((i : ℚ) + 1) ^ 2)
  let sp : Pt := ⟨r.smoothedPosition.x + (avg.x - r.smoothedPosition.x) * (1 / 4),
                  r.smoothedPosition.y + (avg.y - r.smoothedPosition.y) * (1 / 4)⟩
  ({ r with palmPositionHistory := hist, smoothedPosition := sp }, ⟨sp.x * w, sp.y * h⟩)

/-- Truthiness of `this.pointingStartTime` (a number or `null`). -/
def tapStartTruthy (o : Option ℚ) : Bool :=
  match o with
  | some t => decide (t ≠ 0)
  | none => false

/-- The JS `movement < 0.1` check of `detectTap`: movement is 0 when no
start position is recorded, otherwise the distance from the start
position (embedded squared: `< 1/100`). -/
def tapMovOK (startPos : Option Pt) (cursor : Pt) : Bool :=
  match startPos with
  | some p => decide (distSq p cursor < 1 / 100)
  | none => true

/-- `GestureRecognizer.detectTap(gesture)`: a rising edge of the
pointing flag records start time and position; a falling edge with a
truthy recorded start accepts a tap iff the episode lasted `< 300` ms,
moved `< 0.1`, and the falling edge comes `> 400` ms after the last
accepted tap.  Returns the updated state and the `isTap` flag. -/
def detectTap (r : Rec) (now : ℚ) (isPointing : Bool) (cursor : Pt) : Rec × Bool :=
  let r1 := if isPointing = true ∧ r.wasPointing = false then
      { r with pointingStartTime := some now, pointingStartPosition := some cursor }
    else r
  if isPointing = false ∧ r1.wasPointing = true ∧ tapStartTruthy r1.pointingStartTime = true then
    if now - r1.pointingStartTime.getD 0 < 300 ∧
       tapMovOK r1.pointingStartPosition cursor = true ∧
       400 < now - r1.lastTapTime then
      ({ r1 with lastTapTime := now, wasPointing := isPointing, pointingStartTime := none }, true)
    else
      ({ r1 with wasPointing := isPointing }, false)
  else
    ({ r1 with wasPointing := isPointing }, false)

/-- `GestureRecognizer.resetState()`: clears the transient tap/gesture
state but keeps the position histories and the smoothed position. -/
def resetState (r : Rec) : Rec :=
  { r with previousGestureType := none, twoHandActive := false,
           twoHandInitialDistance := none, pointingStartTime := none,
           wasPointing := false }

/-- Push the gesture type into the 20-entry rolling history. -/
def capHist (h : List (GType × ℚ)) : List (GType × ℚ) :=
  if 20 < h.length then h.drop 1 else h

/-- `GestureRecognizer.process(hands, canvasWidth, canvasHeight)`:
`null`/missing or empty `hands` resets transient state and returns
`null`; otherwise the first hand is analyzed (an exception propagates
as `Except.error`), smoothed by gesture type, run through tap
detection, and recorded in the gesture history.  `now` is the frame's
`Date.now()` reading. -/
def process (r : Rec) (now : ℚ) (hands : Option (List (List Pt3))) (w h : ℚ) :
    Except Unit (Rec × Option Gesture) :=
  match hands with
  | none => Except.ok (resetState r, none)
  | some hs =>
    if hs.isEmpty then Except.ok (resetState r, none)
    else do
      let l := hs.headD []
      let g ← analyzeHandE l
      let (r1, sp) := if g.isOpenPalm then smoothPalmPosition r g.cursorPosition w h
                      else smoothPosition r g.cursorPosition w h
      let g1 := { g with smoothedPosition := sp }
      let (r2, tap) := detectTap r1 now g1.isPointing g1.cursorPosition
      let g2 := { g1 with isTap := tap }
      let r3 := { r2 with
                    gestureHistory := capHist (r2.gestureHistory ++ [(g2.type, now)]),
                    previousGestureType := some g2.type }
      pure (r3, some g2)

/-- The style options a tool passes to new elements (`Tool.getStyle`). -/
structure ToolStyle where
  strokeColor : String
  fillColor : String
  strokeWidth : ℚ
  deriving DecidableEq, Repr

/-- The tools' initial style (`Tool` constructor defaults). -/
def defaultStyle : ToolStyle :=
  ⟨"#1e1e1e", "transparent", 4⟩

/-- `{...this.getStyle()}` spread into an element-constructor options
object. -/
def styleOpts (st : ToolStyle) : Opts :=
  { noOpts with strokeColor := some st.strokeColor, fillColor := some st.fillColor,
                strokeWidth := some st.strokeWidth }

/-- Shared drag state of the shape tools (`Tool.startPoint`,
`Tool.currentPoint`, `Tool.previewElement`). -/
structure ShapeToolState where
  startPoint : Option Pt
  currentPoint : Option Pt
  preview : Option El
  deriving DecidableEq, Repr

/-- A shape tool with no drag in progress. -/
def shapeIdle : ShapeToolState :=
  ⟨none, none, none⟩

/-- `RectangleTool.onStart`: record the canvas-space anchor and create a
zero-size preview there; constructing the preview consumes a fresh id. -/
def rectOnStart (cv : CanvasState) (c : Nat) (st : ToolStyle) (p : Pt) : Nat × ShapeToolState :=
  let sp := screenToCanvas cv.transform p
  (c + 1, ⟨some sp, some sp,
    some (mkRectangle { styleOpts st with x := some sp.x, y := some sp.y,
                                          width := some 0, height := some 0 } c)⟩)

/-- `RectangleTool.onMove` (and `CircleTool.onMove`, which is
identical): resize the preview to the bounding box of anchor and
current point. -/
def rectOnMove (cv : CanvasState) (s : ShapeToolState) (p : Pt) : ShapeToolState :=
  let cp := screenToCanvas cv.transform p
  let s1 := { s with currentPoint := some cp }
  match s1.preview, s1.startPoint with
  | some el, some sp =>
      let b := getBoundsQ sp cp
      { s1 with preview := some { el with x := b.1, y := b.2.1, width := b.2.2.1, height := b.2.2.2 } }
  | _, _ => s1

/-- `RectangleTool.onEnd` / `CircleTool.onEnd`: commit the preview to
the scene only when `width > 5 && height > 5`, then clear the drag
state. -/
def rectOnEnd (cv : CanvasState) (s : ShapeToolState) : CanvasState × ShapeToolState :=
  let cv2 := match s.preview with
    | some el => if 5 < el.width ∧ 5 < el.height then addElement cv el else cv
    | none => cv
  (cv2, shapeIdle)

/-- `CircleTool.onStart`. -/
def circleOnStart (cv : CanvasState) (c : Nat) (st : ToolStyle) (p : Pt) : Nat × ShapeToolState :=
  let sp := screenToCanvas cv.transform p
  (c + 1, ⟨some sp, some sp,
    some (mkCircle { styleOpts st with x := some sp.x, y := some sp.y,
                                       width := some 0, height := some 0 } c)⟩)

/-- Write `endX`/`endY` of a line or arrow preview (direct field
assignment in `LineTool.onMove`/`ArrowTool.onMove`). -/
def setLineEnd (el : El) (cp : Pt) : El :=
  match el.kind with
  | ElKind.line sx sy _ _ => { el with kind := ElKind.line sx sy cp.x cp.y }
  | ElKind.arrow sx sy _ _ hl ha => { el with kind := ElKind.arrow sx sy cp.x cp.y hl ha }
  | _ => el

/-- Squared length of a line/arrow element, start to end. -/
def elLineLenSq (el : El) : ℚ :=
  match el.kind with
  | ElKind.line sx sy ex ey => distSq ⟨sx, sy⟩ ⟨ex, ey⟩
  | ElKind.arrow sx sy ex ey _ _ => distSq ⟨sx, sy⟩ ⟨ex, ey⟩
  | _ => 0

/-- `LineTool.onStart`: preview line with both endpoints at the
anchor. -/
def lineOnStart (cv : CanvasState) (c : Nat) (st : ToolStyle) (p : Pt) : Nat × ShapeToolState :=
  let sp := screenToCanvas cv.transform p
  (c + 1, ⟨some sp, some sp,
    some (mkLine { styleOpts st with startX := some sp.x, startY := some sp.y,
                                     endX := some sp.x, endY := some sp.y } c)⟩)

/-- `ArrowTool.onStart`. -/
def arrowOnStart (cv : CanvasState) (c : Nat) (st : ToolStyle) (p : Pt) : Nat × ShapeToolState :=
  let sp := screenToCanvas cv.transform p
  (c + 1, ⟨some sp, some sp,
    some (mkArrow { styleOpts st with startX := some sp.x, startY := some sp.y,
                                      endX := some sp.x, endY := some sp.y } c)⟩)

/-- `LineTool.onMove` / `ArrowTool.onMove`: move the preview's endpoint
to the current point and recompute its bounds. -/
def lineOnMove (cv : CanvasState) (s : ShapeToolState) (p : Pt) : ShapeToolState :=
  let cp := screenToCanvas cv.transform p
  let s1 := { s with currentPoint := some cp }
  match s1.preview with
  | some el => { s1 with preview := some (lineUpdateBounds (setLineEnd el cp)) }
  | none => s1

/-- `LineTool.onEnd` / `ArrowTool.onEnd`: commit only when the start-to-
end length exceeds 10 (squared: `> 100`), then clear the drag state. -/
def lineOnEnd (cv : CanvasState) (s : ShapeToolState) : CanvasState × ShapeToolState :=
  let cv2 := match s.preview with
    | some el => if 100 < elLineLenSq el then addElement cv el else cv
    | none => cv
  (cv2, shapeIdle)

/-- Drag state of `SelectTool` (`draggedElement` modelled as an index
into the scene's element list). -/
structure SelectState where
  startPoint : Option Pt
  currentPoint : Option Pt
  draggedIdx : Option Nat
  dragOffset : Pt
  deriving DecidableEq, Repr

/-- The select tool with no drag in progress. -/
def selectIdle : SelectState :=
  ⟨none, none, none, ⟨0, 0⟩⟩

/-- `SelectTool.onStart`: hit-test under the anchor; on a hit select the
element and record the drag offset (anchor − element origin), otherwise
deselect all. -/
def selOnStart (cv : CanvasState) (s : SelectState) (p : Pt) : CanvasState × SelectState :=
  let sp := screenToCanvas cv.transform p
  let s1 := { s with startPoint := some sp, currentPoint := some sp }
  match getElementAt cv p with
  | some i =>
      let el := cv.elements.getD i (mkBase noOpts 0)
      (selectElement cv (some i),
       { s1 with draggedIdx := some i, dragOffset := ⟨sp.x - el.x, sp.y - el.y⟩ })
  | none => (selectElement cv none, { s1 with draggedIdx := none })

/-- `SelectTool.onMove`: writes only the dragged element's `x` and `y`
fields (`draggedElement.x = startPoint.x - dragOffset.x + dx`); the
endpoint/point fields of lines, arrows and freehand paths are left
untouched (the commented-out branch in the source does nothing). -/
def selOnMove (cv : CanvasState) (s : SelectState) (p : Pt) : CanvasState × SelectState :=
  let cp := screenToCanvas cv.transform p
  let s1 := { s with currentPoint := some cp }
  match s1.draggedIdx, s1.startPoint with
  | some i, some sp =>
      let dx := cp.x - sp.x
      let dy := cp.y - sp.y
      let es := modifyAt cv.elements i
        (fun e => { e with x := sp.x - s1.dragOffset.x + dx,
                           y := sp.y - s1.dragOffset.y + dy })
      ({ cv with elements := es }, s1)
  | _, _ => (cv, s1)

/-- `SelectTool.onEnd`: push exactly one history snapshot when a drag
was in progress, then clear the drag state. -/
def selOnEnd (cv : CanvasState) (s : SelectState) : CanvasState × SelectState :=
  let cv2 := if s.draggedIdx.isSome then saveHistory cv else cv
  (cv2, { selectIdle with dragOffset := s.dragOffset })

/-- Drag state of `FreehandTool`. -/
structure FreehandState where
  startPoint : Option Pt
  currentPoint : Option Pt
  preview : Option El
  lastPoint : Option Pt
  deriving DecidableEq, Repr

/-- Number of points of a freehand element. -/
def elPtsLen (el : El) : Nat :=
  match el.kind with
  | ElKind.freehand pts => pts.length
  | _ => 0

/-- Points of a freehand element. -/
def elPts (el : El) : List Pt :=
  match el.kind with
  | ElKind.freehand pts => pts
  | _ => []

/-- `FreehandTool.onStart`: preview path seeded with the anchor point;
the anchor becomes the last recorded point. -/
def fhOnStart (cv : CanvasState) (c : Nat) (st : ToolStyle) (p : Pt) : Nat × FreehandState :=
  let sp := screenToCanvas cv.transform p
  (c + 1, ⟨some sp, some sp,
    some (mkFreehand { styleOpts st with points := some [sp] } c), some sp⟩)

/-- `FreehandTool.onMove`: append the current point only when it is at
least `minDistance = 3` canvas units from the last recorded point
(squared: `9 ≤`). -/
def fhOnMove (cv : CanvasState) (s : FreehandState) (p : Pt) : FreehandState :=
  let cp := screenToCanvas cv.transform p
  let s1 := { s with currentPoint := some cp }
  match s1.preview, s1.lastPoint with
  | some el, some lp =>
      if (9 : ℚ) ≤ distSq lp cp then
        { s1 with preview := some (fhAddPoint el cp), lastPoint := some cp }
      else s1
  | _, _ => s1

/-- `FreehandTool.onEnd`: when more than 2 points were captured, run
`simplify()` on the preview and commit it; otherwise nothing is added.
The drag state is cleared either way. -/
def fhOnEnd (cv : CanvasState) (s : FreehandState) : CanvasState × FreehandState :=
  let cv2 := match s.preview with
    | some el => if 2 < elPtsLen el then addElement cv (elSimplify el) else cv
    | none => cv
  (cv2, ⟨none, none, none, none⟩)

/-- The scene-mutating operations of claim C3: element addition and
removal, clear, a drag-end `saveHistory`, undo and redo. -/
inductive COp where
  | add (e : El)
  | remove (i : Nat)
  | clearOp
  | save
  | undoOp
  | redoOp
  deriving DecidableEq, Repr

/-- Apply one operation to the id counter and canvas state. -/
def applyOp (cs : Nat × CanvasState) (op : COp) : Nat × CanvasState :=
  match op with
  | COp.add e => (cs.1, addElement cs.2 e)
  | COp.remove i => (cs.1, removeElement cs.2 i)
  | COp.clearOp => (cs.1, clearC cs.2)
  | COp.save => (cs.1, saveHistory cs.2)
  | COp.undoOp => undoC cs.1 cs.2
  | COp.redoOp => redoC cs.1 cs.2

/-- Run a sequence of operations from the freshly constructed canvas. -/
def runOps (ops : List COp) : Nat × CanvasState :=
  ops.foldl applyOp (0, initCanvas)

lemma jsOrQ_zeroD (v : ℚ) : jsOrQ (some v) 0 = v := by
  by_cases h : v = 0 <;> simp [jsOrQ, h]

lemma jsOrQ_ne (v d : ℚ) (h : v ≠ 0) : jsOrQ (some v) d = v := by
  simp [jsOrQ, h]

lemma jsOrS_ne (s d : String) (h : s ≠ "") : jsOrS (some s) d = s := by
  simp [jsOrS, h]

/-- The `type` string each constructor stores for a given payload. -/
def kindName : ElKind → String
  | ElKind.element => "element"
  | ElKind.rectangle _ => "rectangle"
  | ElKind.circle => "circle"
  | ElKind.line _ _ _ _ => "line"
  | ElKind.arrow _ _ _ _ _ _ => "arrow"
  | ElKind.freehand _ => "freehand"

/-- Side conditions under which deserialization reconstructs an element
exactly: the `type` tag matches the payload, no style field is a falsy
value that the constructor's `||` defaults would overwrite, line/arrow
endpoint coordinates and arrowhead parameters are nonzero (each has a
falsy fallback), and the bounds fields agree with the endpoints/points
(as `updateBounds` maintains them). -/
def RoundtripSafe (e : El) : Prop :=
  e.ty = kindName e.kind ∧
  e.strokeColor ≠ "" ∧ e.fillColor ≠ "" ∧ e.strokeWidth ≠ 0 ∧ e.opacity ≠ 0 ∧
  match e.kind with
  | ElKind.element => True
  | ElKind.rectangle _ => True
  | ElKind.circle => True
  | ElKind.line sx sy ex ey =>
      sx ≠ 0 ∧ sy ≠ 0 ∧ ex ≠ 0 ∧ ey ≠ 0 ∧
      e.x = min sx ex ∧ e.y = min sy ey ∧ e.width = |ex - sx| ∧ e.height = |ey - sy|
  | ElKind.arrow sx sy ex ey hl ha =>
      sx ≠ 0 ∧ sy ≠ 0 ∧ ex ≠ 0 ∧ ey ≠ 0 ∧ hl ≠ 0 ∧ ha ≠ 0 ∧
      e.x = min sx ex ∧ e.y = min sy ey ∧ e.width = |ex - sx| ∧ e.height = |ey - sy|
  | ElKind.freehand pts =>
      match pts with
      | [] => True
      | p :: ps =>
          e.x = ptsMinX p ps ∧ e.y = ptsMinY p ps ∧
          e.width = ptsMaxX p ps - ptsMinX p ps ∧ e.height = ptsMaxY p ps - ptsMinY p ps

/-- C1 (amended): `Element.fromJSON(e.toJSON())` reproduces `e`'s type,
geometry and style for every element whose serialized fields avoid the
constructors' falsy (`||`) fallbacks and whose bounds agree with its
endpoints/points — but the id is always the freshly generated one (`c`),
never the serialized `e.id`, and the transient `selected`/`locked`
flags restart `false`. -/
theorem c1_roundtrip_amended (e : El) (c : Nat) (h : RoundtripSafe e) :
    fromJSON (toJSON e) c = { e with id := c, selected := false, locked := false } := by
  obtain ⟨hty, h1, h2, h3, h4, hk⟩ := h
  obtain ⟨i0, t0, x0, y0, w0, hh0, r0, sc0, fc0, sw0, op0, sel0, lk0, k0⟩ := e
  simp only [kindName] at hty
  cases k0 with
  | element =>
      subst hty
      simp_all [toJSON, baseJSON, fromJSON, mkBase, noOpts, jsOrQ_zeroD, jsOrQ_ne, jsOrS_ne]
  | rectangle cr =>
      subst hty
      simp_all [toJSON, baseJSON, fromJSON, mkRectangle, mkBase, noOpts,
                jsOrQ_zeroD, jsOrQ_ne, jsOrS_ne]
  | circle =>
      subst hty
      simp_all [toJSON, baseJSON, fromJSON, mkCircle, mkBase, noOpts,
                jsOrQ_zeroD, jsOrQ_ne, jsOrS_ne]
  | line sx sy ex ey =>
      subst hty
      obtain ⟨hsx, hsy, hex, hey, hbx, hby, hbw, hbh⟩ := hk
      simp_all [toJSON, baseJSON, fromJSON, mkLine, mkBase, noOpts, lineUpdateBounds,
                jsOrQ_zeroD, jsOrQ_ne, jsOrS_ne]
  | arrow sx sy ex ey hl ha =>
      subst hty
      obtain ⟨hsx, hsy, hex, hey, hhl, hha, hbx, hby, hbw, hbh⟩ := hk
      simp_all [toJSON, baseJSON, fromJSON, mkArrow, mkLine, mkBase, noOpts, lineUpdateBounds,
                jsOrQ_zeroD, jsOrQ_ne, jsOrS_ne]
  | freehand pts =>
      subst hty
      cases pts with
      | nil =>
          simp_all [toJSON, baseJSON, fromJSON, mkFreehand, mkBase, noOpts, jsOrPts,
                    fhUpdateBounds, jsOrQ_zeroD, jsOrQ_ne, jsOrS_ne]
      | cons p ps =>
          obtain ⟨hbx, hby, hbw, hbh⟩ := hk
          simp_all [toJSON, baseJSON, fromJSON, mkFreehand, mkBase, noOpts, jsOrPts,
                    fhUpdateBounds, jsOrQ_zeroD, jsOrQ_ne, jsOrS_ne]

/-- Concrete safe line used to witness the amended round-trip. -/
def c1SafeEl : El :=
  ⟨7, "line", 1, 2, 2, 1, 0, "#ff0000", "transparent", 4, 1, true, false, ElKind.line 1 2 3 3⟩

theorem c1_roundtrip_amended_witness :
    fromJSON (toJSON c1SafeEl) 9 = { c1SafeEl with id := 9, selected := false, locked := false } :=
  c1_roundtrip_amended c1SafeEl 9
    (by unfold RoundtripSafe c1SafeEl kindName
        norm_num
        exact ⟨by decide, by decide⟩)

/-- A line reachable by construction and one `move` whose `endX` is 0. -/
def c1BadEl : El :=
  elMove (mkLine { noOpts with startX := some 8, startY := some 1,
                               endX := some 5, endY := some 1 } 0) (-5) 0

/-- C1 (counterexample to the claim as stated): for the moved line
`c1BadEl` — endpoints (3, 1)–(0, 1) — the round trip neither preserves
the geometry (the `endX = options.endX || this.startX` fallback turns
the endpoint 0 back into 3) nor the id (`fromJSON` always calls
`Utils.generateId()`, here returning the fresh id 1, and never reads
`data.id`). -/
theorem c1_counterexample :
    c1BadEl.id = 0 ∧ c1BadEl.kind = ElKind.line 3 1 0 1 ∧
    (fromJSON (toJSON c1BadEl) 1).kind = ElKind.line 3 1 3 1 ∧
    (fromJSON (toJSON c1BadEl) 1).id = 1 := by
  have hb : c1BadEl = ⟨0, "line", 0, 1, 3, 0, 0, "#1e1e1e", "transparent", 4, 1, false, false,
      ElKind.line 3 1 0 1⟩ := by
    unfold c1BadEl mkLine mkBase noOpts
    norm_num [jsOrQ, jsOrS, elMove, lineUpdateBounds]
  rw [hb]
  norm_num [toJSON, baseJSON, fromJSON, mkLine, mkBase, noOpts, jsOrQ, jsOrS, lineUpdateBounds]

/-- C4: with the same transform and a nonzero scale, `canvasToScreen`
inverts `screenToCanvas` exactly. -/
theorem c4_inverse_transform (t : Transform) (p : Pt) (h : t.scale ≠ 0) :
    canvasToScreen t (screenToCanvas t p) = p := by
  obtain ⟨px, py⟩ := p
  simp only [canvasToScreen, screenToCanvas, Pt.mk.injEq]
  constructor <;> field_simp

theorem c4_inverse_transform_witness :
    canvasToScreen ⟨5, 7, 3⟩ (screenToCanvas ⟨5, 7, 3⟩ ⟨11, 13⟩) = ⟨11, 13⟩ :=
  c4_inverse_transform ⟨5, 7, 3⟩ ⟨11, 13⟩ (by norm_num)

/-- C5: for a transform with scale in the legal range `[0.1, 4]` and any
positive zoom factor, the canvas point under the anchor is unchanged by
`zoom` (also when the new scale is clamped), and when the clamped scale
equals the old one `zoom` changes no state and emits no notification. -/
theorem c5_zoom_anchor (t : Transform) (f cx cy : ℚ)
    (h1 : 1 / 10 ≤ t.scale) (h2 : t.scale ≤ 4) (h3 : 0 < f) :
    screenToCanvas (zoomT t f cx cy).1 ⟨cx, cy⟩ = screenToCanvas t ⟨cx, cy⟩ ∧
    (clamp (t.scale * f) (1 / 10) 4 = t.scale → zoomT t f cx cy = (t, false)) := by
  have hs0 : (0 : ℚ) < t.scale := lt_of_lt_of_le (by norm_num) h1
  have hns : (1 : ℚ) / 10 ≤ clamp (t.scale * f) (1 / 10) 4 :=
    le_min (le_max_right _ _) (by norm_num)
  have hns0 : clamp (t.scale * f) (1 / 10) 4 ≠ 0 :=
    ne_of_gt (lt_of_lt_of_le (by norm_num) hns)
  have hsne : t.scale ≠ 0 := ne_of_gt hs0
  constructor
  · unfold zoomT
    split_ifs with hc
    · rfl
    · simp only [screenToCanvas, Pt.mk.injEq]
      constructor <;>
        · field_simp
          ring
  · intro hEq
    unfold zoomT
    rw [if_pos hEq]

theorem c5_zoom_anchor_witness :
    screenToCanvas (zoomT ⟨0, 0, 1⟩ 2 100 50).1 ⟨100, 50⟩ = screenToCanvas ⟨0, 0, 1⟩ ⟨100, 50⟩ ∧
    (clamp ((1 : ℚ) * 2) (1 / 10) 4 = 1 → zoomT ⟨0, 0, 1⟩ 2 100 50 = (⟨0, 0, 1⟩, false)) := by
  have h := c5_zoom_anchor ⟨0, 0, 1⟩ 2 100 50 (by norm_num) (by norm_num) (by norm_num)
  exact h

/-- The history invariant: either no snapshot was ever saved (fresh
canvas), or the cursor is inside the bounded buffer. -/
def HistInv (s : CanvasState) : Prop :=
  (s.history = [] ∧ s.historyIndex = -1) ∨
  (0 ≤ s.historyIndex ∧ s.historyIndex < (s.history.length : Int) ∧ s.history.length ≤ 50)

lemma saveHistory_histInv (s : CanvasState) (h : HistInv s) : HistInv (saveHistory s) := by
  simp only [saveHistory]
  rcases h with ⟨h1, h2⟩ | ⟨h1, h2, h3⟩
  · rw [h1, h2]
    norm_num [HistInv]
  · unfold HistInv
    split_ifs with hc <;>
      [skip; skip] <;>
      · right
        simp only [List.length_drop, List.length_append, List.length_take,
                   List.length_singleton] at hc ⊢
        omega

lemma applyOp_histInv (cs : Nat × CanvasState) (op : COp) (h : HistInv cs.2) :
    HistInv (applyOp cs op).2 := by
  cases op with
  | add e => exact saveHistory_histInv _ h
  | remove i =>
      simp only [applyOp, removeElement]
      split_ifs with hi
      · exact saveHistory_histInv _ h
      · exact h
  | clearOp => exact saveHistory_histInv _ h
  | save => exact saveHistory_histInv _ h
  | undoOp =>
      simp only [applyOp, undoC]
      split_ifs with hcu
      · have hgt : (0 : Int) < cs.2.historyIndex := of_decide_eq_true hcu
        show HistInv _
        simp only [restoreFromHistory]
        unfold HistInv
        dsimp only
        rcases h with ⟨h1, h2⟩ | ⟨h1, h2, h3⟩
        · omega
        · right
          refine ⟨by omega, by omega, h3⟩
      · exact h
  | redoOp =>
      simp only [applyOp, redoC]
      split_ifs with hcr
      · have hlt : cs.2.historyIndex < (cs.2.history.length : Int) - 1 := of_decide_eq_true hcr
        show HistInv _
        simp only [restoreFromHistory]
        unfold HistInv
        dsimp only
        rcases h with ⟨h1, h2⟩ | ⟨h1, h2, h3⟩
        · rw [h1] at hlt
          simp at hlt
          omega
        · right
          refine ⟨by omega, by omega, h3⟩
      · exact h

lemma runOps_histInv (ops : List COp) : HistInv (runOps ops).2 := by
  unfold runOps
  have key : ∀ (l : List COp) (cs : Nat × CanvasState),
      HistInv cs.2 → HistInv (l.foldl applyOp cs).2 := by
    intro l
    induction l with
    | nil => exact fun cs h => h
    | cons a t ih => exact fun cs h => ih _ (applyOp_histInv cs a h)
  exact key ops (0, initCanvas) (Or.inl ⟨rfl, rfl⟩)

/-- C3: over every sequence of scene-mutating operations interleaved
with undo/redo, once a first snapshot exists the cursor satisfies
`0 ≤ historyIndex < history.length` with `history.length ≤ 50`;
`undo`/`redo` at the boundary change nothing at all; and immediately
after every `saveHistory` (the common path of add/remove/clear and
drag-end saves) the cursor addresses exactly the snapshot just pushed —
also when the oldest snapshot was evicted. -/
theorem c3_history_invariant :
    (∀ ops : List COp, 0 ≤ (runOps ops).2.historyIndex →
        (runOps ops).2.historyIndex < ((runOps ops).2.history.length : Int) ∧
        (runOps ops).2.history.length ≤ 50) ∧
    (∀ (c : Nat) (s : CanvasState), canUndo s = false → undoC c s = (c, s)) ∧
    (∀ (c : Nat) (s : CanvasState), canRedo s = false → redoC c s = (c, s)) ∧
    (∀ s : CanvasState, HistInv s →
        (saveHistory s).history.get? (saveHistory s).historyIndex.toNat =
          some (s.elements.map toJSON)) := by
  refine ⟨?_, ?_, ?_, ?_⟩
  · intro ops h0
    rcases runOps_histInv ops with ⟨h1, h2⟩ | ⟨h1, h2, h3⟩
    · rw [h2] at h0
      omega
    · exact ⟨h2, h3⟩
  · intro c s h
    unfold undoC
    simp [h]
  · intro c s h
    unfold redoC
    simp [h]
  · intro s h
    simp only [saveHistory]
    rcases h with ⟨h1, h2⟩ | ⟨h1, h2, h3⟩
    · rw [h1, h2]
      norm_num
    · split_ifs with hc
      · simp only [List.length_append, List.length_take, List.length_singleton] at hc
        rw [List.get?_drop]
        have hlen : 1 + s.historyIndex.toNat =
            (s.history.take (s.historyIndex + 1).toNat).length := by
          simp only [List.length_take]
          omega
        rw [hlen, List.get?_concat_length]
      · have hlen : (s.historyIndex + 1).toNat =
            (s.history.take (s.historyIndex + 1).toNat).length := by
          simp only [List.length_take]
          omega
        have hcl := List.get?_concat_length
          (s.history.take (s.historyIndex + 1).toNat) (s.elements.map toJSON)
        rw [← hlen] at hcl
        exact hcl

theorem c3_history_invariant_witness :
    ((runOps [COp.save, COp.save]).2.historyIndex <
        ((runOps [COp.save, COp.save]).2.history.length : Int) ∧
      (runOps [COp.save, COp.save]).2.history.length ≤ 50) ∧
    undoC 0 initCanvas = (0, initCanvas) ∧
    redoC 3 (saveHistory initCanvas) = (3, saveHistory initCanvas) ∧
    (saveHistory initCanvas).history.get? (saveHistory initCanvas).historyIndex.toNat =
      some (initCanvas.elements.map toJSON) :=
  ⟨c3_history_invariant.1 [COp.save, COp.save] (by decide),
   c3_history_invariant.2.1 0 initCanvas (by decide),
   c3_history_invariant.2.2.1 3 (saveHistory initCanvas) (by decide),
   c3_history_invariant.2.2.2 initCanvas (Or.inl ⟨rfl, rfl⟩)⟩

lemma fhUpdateBounds_selected (e : El) : (fhUpdateBounds e).selected = e.selected := by
  unfold fhUpdateBounds
  split
  · split <;> rfl
  · rfl

lemma lineUpdateBounds_selected (e : El) : (lineUpdateBounds e).selected = e.selected := by
  unfold lineUpdateBounds
  split <;> rfl

lemma mkLine_selected (o : Opts) (c : Nat) : (mkLine o c).selected = false := by
  simp only [mkLine, lineUpdateBounds_selected, mkBase]

lemma mkArrow_selected (o : Opts) (c : Nat) : (mkArrow o c).selected = false := by
  simp only [mkArrow, mkLine_selected]

lemma mkFreehand_selected (o : Opts) (c : Nat) : (mkFreehand o c).selected = false := by
  simp only [mkFreehand]
  split_ifs <;> simp only [fhUpdateBounds_selected, mkBase]

lemma fromJSON_selected (o : Opts) (c : Nat) : (fromJSON o c).selected = false := by
  unfold fromJSON
  split <;>
    simp only [mkRectangle, mkCircle, mkBase, mkLine_selected, mkArrow_selected,
               mkFreehand_selected]

lemma mapFromJSON_selected (os : List Opts) :
    ∀ (c : Nat), ∀ e ∈ (mapFromJSON c os).2, e.selected = false := by
  induction os with
  | nil => intro c e he; simp [mapFromJSON] at he
  | cons o rest ih =>
      intro c e he
      rcases (List.mem_cons).mp he with rfl | hm
      · exact fromJSON_selected o c
      · exact ih (c + 1) e hm

/-- C10: whenever `undo()` or `redo()` actually restores a snapshot
(its `can…` guard holds), the restored scene has no selected element:
`selectedElement` is `null` and every rebuilt element carries
`selected = false`, regardless of the selection at snapshot time (the
serialization never stores the flag, and `restoreFromHistory` clears
the back-reference). -/
theorem c10_restore_clears_selection (c : Nat) (s : CanvasState) :
    (canUndo s = true →
      (undoC c s).2.selectedIdx = none ∧
      ∀ e ∈ (undoC c s).2.elements, e.selected = false) ∧
    (canRedo s = true →
      (redoC c s).2.selectedIdx = none ∧
      ∀ e ∈ (redoC c s).2.elements, e.selected = false) := by
  constructor
  · intro h
    unfold undoC
    rw [if_pos h]
    exact ⟨rfl, fun e he => mapFromJSON_selected _ _ e he⟩
  · intro h
    unfold redoC
    rw [if_pos h]
    exact ⟨rfl, fun e he => mapFromJSON_selected _ _ e he⟩

/-- A canvas with two snapshots, a selected element, and `canUndo`. -/
def c10State : CanvasState :=
  selectElement (clearC (addElement initCanvas (mkRectangle noOpts 0))) none

theorem c10_restore_clears_selection_witness :
    (undoC 5 c10State).2.selectedIdx = none ∧
    ∀ e ∈ (undoC 5 c10State).2.elements, e.selected = false :=
  (c10_restore_clears_selection 5 c10State).1 (by decide)

lemma exceptBind_ok {α β : Type} {x : Except Unit α} {f : α → Except Unit β} {b : β}
    (h : x >>= f = Except.ok b) : ∃ a, x = Except.ok a ∧ f a = Except.ok b := by
  cases x with
  | ok a => exact ⟨a, rfl, h⟩
  | error e => exact Except.noConfusion h

lemma getLm_ok {l : List Pt3} {i : Nat} {p : Pt3} (h : getLm l i = Except.ok p) :
    i < l.length := by
  by_contra hlt
  push_neg at hlt
  unfold getLm at h
  rw [List.get?_eq_none.mpr hlt] at h
  exact Except.noConfusion h

lemma isExtendedE_ok {l : List Pt3} {ti pj mj : Nat} {b : Bool}
    (h : isExtendedE l ti pj mj = Except.ok b) : ti < l.length := by
  unfold isExtendedE at h
  obtain ⟨tip, htip, -⟩ := exceptBind_ok h
  exact getLm_ok htip

lemma getFingerStatesE_ok {l : List Pt3} {fs : FingerStates}
    (h : getFingerStatesE l = Except.ok fs) : 21 ≤ l.length := by
  unfold getFingerStatesE at h
  obtain ⟨a4, h4, h⟩ := exceptBind_ok h
  obtain ⟨a5, h5, h⟩ := exceptBind_ok h
  obtain ⟨aI, hI, h⟩ := exceptBind_ok h
  obtain ⟨aM, hM, h⟩ := exceptBind_ok h
  obtain ⟨aR, hR, h⟩ := exceptBind_ok h
  obtain ⟨aP, hP, h⟩ := exceptBind_ok h
  have h20 := isExtendedE_ok hP
  omega

/-- C2 (code bug): `process` does return `null` without throwing when
`hands` is missing or empty, but when the first hand has fewer than 21
landmark points it throws (a `TypeError` on a property of an
out-of-range — `undefined` — landmark inside `getFingerStates`) instead
of degrading to "no gesture" as the spec requires. -/
theorem c2_short_hand_throws :
    (∀ (r : Rec) (now w h : ℚ), process r now none w h = Except.ok (resetState r, none)) ∧
    (∀ (r : Rec) (now w h : ℚ), process r now (some []) w h = Except.ok (resetState r, none)) ∧
    (∀ (r : Rec) (now w h : ℚ) (hand : List Pt3) (rest : List (List Pt3)),
        hand.length < 21 →
        process r now (some (hand :: rest)) w h = Except.error ()) := by
  refine ⟨fun r now w h => rfl, fun r now w h => rfl, ?_⟩
  intro r now w h hand rest hlen
  have hfs : getFingerStatesE hand = Except.error () := by
    cases hE : getFingerStatesE hand with
    | ok fs => exact absurd (getFingerStatesE_ok hE) (by omega)
    | error u => cases u; rfl
  have hAn : analyzeHandE hand = Except.error () := by
    unfold analyzeHandE
    rw [hfs]
    rfl
  unfold process
  dsimp only
  rw [if_neg (by simp)]
  dsimp only [List.headD]
  rw [hAn]
  rfl

theorem c2_short_hand_throws_witness :
    process rec0 1000 (some [[]]) 800 600 = Except.error () :=
  c2_short_hand_throws.2.2 rec0 1000 800 600 [] [] (by norm_num)

/-- Run `detectTap` over a list of frames `(now, isPointing, cursor)`,
collecting the per-frame `isTap` outputs. -/
def runDetect (r : Rec) (frames : List (ℚ × Bool × Pt)) : Rec × List Bool :=
  match frames with
  | [] => (r, [])
  | f :: fs =>
      ((runDetect (detectTap r f.1 f.2.1 f.2.2).1 fs).1,
       (detectTap r f.1 f.2.1 f.2.2).2 :: (runDetect (detectTap r f.1 f.2.1 f.2.2).1 fs).2)

/-- A pointing episode held 250 ms with normalized displacement 0.05. -/
def tapFrames250 : List (ℚ × Bool × Pt) :=
  [(1000, true, ⟨1 / 2, 1 / 2⟩), (1100, true, ⟨1 / 2, 1 / 2⟩), (1250, false, ⟨11 / 20, 1 / 2⟩)]

/-- A pointing episode held 400 ms with no displacement. -/
def tapFrames400 : List (ℚ × Bool × Pt) :=
  [(1000, true, ⟨1 / 2, 1 / 2⟩), (1200, true, ⟨1 / 2, 1 / 2⟩), (1400, false, ⟨1 / 2, 1 / 2⟩)]

/-- Two qualifying tap attempts whose releases are 200 ms apart. -/
def tapFramesDouble : List (ℚ × Bool × Pt) :=
  tapFrames250 ++ [(1300, true, ⟨11 / 20, 1 / 2⟩), (1450, false, ⟨11 / 20, 1 / 2⟩)]

/-- C6 (amended): `isTap` is `true` exactly on a falling edge of the
pointing flag with a recorded (truthy) episode start, episode duration
strictly under 300 ms, displacement from the recorded start position
strictly under 0.1, and the falling edge strictly more than 400 ms
after the last accepted tap — the cooldown is measured at the release,
not at the episode's start; in every other frame `isTap` is `false`.
In particular an episode held 250 ms with displacement 0.05 yields
exactly one tap, one held 400 ms yields none, and of two qualifying
attempts released 200 ms apart only the first is accepted. -/
theorem c6_tap_amended :
    (∀ (r : Rec) (now : ℚ) (isPointing : Bool) (cursor : Pt),
      ((detectTap r now isPointing cursor).2 = true ↔
        (isPointing = false ∧ r.wasPointing = true ∧
         ∃ t, r.pointingStartTime = some t ∧ t ≠ 0 ∧
           now - t < 300 ∧
           (∀ q, r.pointingStartPosition = some q → distSq q cursor < 1 / 100) ∧
           400 < now - r.lastTapTime))) ∧
    (runDetect rec0 tapFrames250).2 = [false, false, true] ∧
    (runDetect rec0 tapFrames400).2 = [false, false, false] ∧
    (runDetect rec0 tapFramesDouble).2 = [false, false, true, false, false] := by
  refine ⟨?_, ?_, ?_, ?_⟩
  · intro r now ip cursor
    cases ip with
    | false =>
        cases hw : r.wasPointing with
        | false => simp [detectTap, hw]
        | true =>
            cases hst : r.pointingStartTime with
            | none => simp [detectTap, hw, hst, tapStartTruthy]
            | some t =>
                by_cases ht : t = 0
                · subst ht
                  simp [detectTap, hw, hst, tapStartTruthy]
                · cases hsp : r.pointingStartPosition with
                  | none =>
                      simp [detectTap, hw, hst, hsp, tapStartTruthy, tapMovOK, ht,
                            apply_ite Prod.snd]
                  | some q =>
                      simp [detectTap, hw, hst, hsp, tapStartTruthy, tapMovOK, ht,
                            apply_ite Prod.snd]
    | true => simp [detectTap]
  · norm_num [runDetect, detectTap, rec0, tapStartTruthy, tapMovOK, distSq, tapFrames250]
  · norm_num [runDetect, detectTap, rec0, tapStartTruthy, tapMovOK, distSq, tapFrames400]
  · norm_num [runDetect, detectTap, rec0, tapStartTruthy, tapMovOK, distSq, tapFramesDouble,
              tapFrames250]

/-- A first accepted tap released at t = 1100, then a second qualifying
episode that starts 390 ms after it but is released 410 ms after it. -/
def tapFramesCooldown : List (ℚ × Bool × Pt) :=
  [(1000, true, ⟨1 / 2, 1 / 2⟩), (1100, false, ⟨1 / 2, 1 / 2⟩),
   (1490, true, ⟨1 / 2, 1 / 2⟩), (1510, false, ⟨1 / 2, 1 / 2⟩)]

/-- C6 (counterexample to the claim as stated): the second episode of
`tapFramesCooldown` begins only 390 ms (≤ 400) after the last accepted
tap, so under the claim's "began strictly more than 400 ms after the
last accepted tap" it must not fire — yet the code accepts it, because
the cooldown `now - lastTapTime > 400` is evaluated at the falling edge
(410 ms after the previous tap). -/
theorem c6_counterexample :
    (runDetect rec0 tapFramesCooldown).2 = [false, true, false, true] ∧
    (1490 : ℚ) - 1100 ≤ 400 := by
  constructor
  · norm_num [runDetect, detectTap, rec0, tapStartTruthy, tapMovOK, distSq, tapFramesCooldown]
  · norm_num

lemma jsOrQ_selfD (v : ℚ) : jsOrQ (some v) v = v := by
  by_cases h : v = 0 <;> simp [jsOrQ, h]

lemma jsOrQ_none (d : ℚ) : jsOrQ none d = d := rfl

/-- A full rectangle-tool drag `onStart A; onMove B; onEnd`. -/
def rectDrag (cv : CanvasState) (c : Nat) (st : ToolStyle) (A B : Pt) : CanvasState :=
  (rectOnEnd cv (rectOnMove cv (rectOnStart cv c st A).2 B)).1

/-- The rectangle preview at the end of the drag. -/
def rectDragEl (cv : CanvasState) (c : Nat) (st : ToolStyle) (A B : Pt) : El :=
  ((rectOnMove cv (rectOnStart cv c st A).2 B).preview).getD (mkBase noOpts 0)

/-- A full circle-tool drag (`CircleTool.onMove`/`onEnd` coincide with
the rectangle tool's). -/
def circleDrag (cv : CanvasState) (c : Nat) (st : ToolStyle) (A B : Pt) : CanvasState :=
  (rectOnEnd cv (rectOnMove cv (circleOnStart cv c st A).2 B)).1

/-- The circle preview at the end of the drag. -/
def circleDragEl (cv : CanvasState) (c : Nat) (st : ToolStyle) (A B : Pt) : El :=
  ((rectOnMove cv (circleOnStart cv c st A).2 B).preview).getD (mkBase noOpts 0)

/-- A full line-tool drag. -/
def lineDrag (cv : CanvasState) (c : Nat) (st : ToolStyle) (A B : Pt) : CanvasState :=
  (lineOnEnd cv (lineOnMove cv (lineOnStart cv c st A).2 B)).1

/-- The line preview at the end of the drag. -/
def lineDragEl (cv : CanvasState) (c : Nat) (st : ToolStyle) (A B : Pt) : El :=
  ((lineOnMove cv (lineOnStart cv c st A).2 B).preview).getD (mkBase noOpts 0)

/-- A full arrow-tool drag. -/
def arrowDrag (cv : CanvasState) (c : Nat) (st : ToolStyle) (A B : Pt) : CanvasState :=
  (lineOnEnd cv (lineOnMove cv (arrowOnStart cv c st A).2 B)).1

/-- The arrow preview at the end of the drag. -/
def arrowDragEl (cv : CanvasState) (c : Nat) (st : ToolStyle) (A B : Pt) : El :=
  ((lineOnMove cv (arrowOnStart cv c st A).2 B).preview).getD (mkBase noOpts 0)

/-- C7: a shape-tool drag from anchor `A` to `B` commits its preview to
the scene iff the shape exceeds the minimum size — strictly more than 5
canvas units in each dimension for rectangle/circle, strictly more than
10 canvas units of start-to-end length (squared: `> 100`) for
line/arrow — and otherwise leaves the canvas untouched; the committed
bounds are the bounding box of the two canvas-space points (endpoints
`a → b` for line/arrow).  In particular a rectangle dragged (0,0)→(3,3)
commits nothing and (0,0)→(10,10) commits bounds `{0, 0, 10, 10}`. -/
theorem c7_shape_commit_threshold :
    (∀ (cv : CanvasState) (c : Nat) (st : ToolStyle) (A B : Pt),
      let a := screenToCanvas cv.transform A
      let b := screenToCanvas cv.transform B
      (rectDrag cv c st A B =
        if 5 < |b.x - a.x| ∧ 5 < |b.y - a.y|
        then addElement cv (rectDragEl cv c st A B) else cv) ∧
      ((rectDragEl cv c st A B).x = min a.x b.x ∧
       (rectDragEl cv c st A B).y = min a.y b.y ∧
       (rectDragEl cv c st A B).width = |b.x - a.x| ∧
       (rectDragEl cv c st A B).height = |b.y - a.y| ∧
       (rectDragEl cv c st A B).kind = ElKind.rectangle 0) ∧
      (circleDrag cv c st A B =
        if 5 < |b.x - a.x| ∧ 5 < |b.y - a.y|
        then addElement cv (circleDragEl cv c st A B) else cv) ∧
      ((circleDragEl cv c st A B).x = min a.x b.x ∧
       (circleDragEl cv c st A B).y = min a.y b.y ∧
       (circleDragEl cv c st A B).width = |b.x - a.x| ∧
       (circleDragEl cv c st A B).height = |b.y - a.y| ∧
       (circleDragEl cv c st A B).kind = ElKind.circle) ∧
      (lineDrag cv c st A B =
        if 100 < distSq a b then addElement cv (lineDragEl cv c st A B) else cv) ∧
      (lineDragEl cv c st A B).kind = ElKind.line a.x a.y b.x b.y ∧
      (arrowDrag cv c st A B =
        if 100 < distSq a b then addElement cv (arrowDragEl cv c st A B) else cv) ∧
      (arrowDragEl cv c st A B).kind = ElKind.arrow a.x a.y b.x b.y 15 (jsPI / 6)) ∧
    rectDrag initCanvas 0 defaultStyle ⟨0, 0⟩ ⟨3, 3⟩ = initCanvas ∧
    (rectDrag initCanvas 0 defaultStyle ⟨0, 0⟩ ⟨10, 10⟩).elements.map
        (fun e => (e.x, e.y, e.width, e.height)) = [(0, 0, 10, 10)] := by
  refine ⟨?_, ?_, ?_⟩
  · intro cv c st A B
    refine ⟨?_, ?_, ?_, ?_, ?_, ?_, ?_, ?_⟩ <;>
      simp [rectDrag, rectDragEl, circleDrag, circleDragEl, lineDrag, lineDragEl,
            arrowDrag, arrowDragEl, rectOnStart, circleOnStart, lineOnStart, arrowOnStart,
            rectOnMove, lineOnMove, rectOnEnd, lineOnEnd, getBoundsQ, setLineEnd,
            lineUpdateBounds, elLineLenSq, mkRectangle, mkCircle, mkLine, mkArrow, mkBase,
            styleOpts, noOpts, jsOrQ_none, jsOrQ_zeroD, jsOrQ_selfD, distSq]
  · norm_num [rectDrag, rectDragEl, rectOnStart, rectOnMove, rectOnEnd, getBoundsQ,
              mkRectangle, mkBase, styleOpts, noOpts, defaultStyle, jsOrQ, jsOrS,
              screenToCanvas, initCanvas]
  · norm_num [rectDrag, rectDragEl, rectOnStart, rectOnMove, rectOnEnd, getBoundsQ,
              mkRectangle, mkBase, styleOpts, noOpts, defaultStyle, jsOrQ, jsOrS,
              screenToCanvas, initCanvas, addElement, saveHistory, toJSON, baseJSON]

/-- The line element of the C8 scenario: endpoints (0,0)–(20,0). -/
def c8line : El :=
  mkLine { noOpts with startX := some 0, startY := some 0,
                       endX := some 20, endY := some 0 } 0

/-- A canvas holding just that line, identity transform. -/
def c8canvas : CanvasState :=
  { initCanvas with elements := [c8line] }

/-- `SelectTool.onStart` at screen (10, 0), which hit-tests the line. -/
def c8AfterStart : CanvasState × SelectState :=
  selOnStart c8canvas selectIdle ⟨10, 0⟩

/-- `SelectTool.onMove` to (15, 5): cumulative delta (5, 5). -/
def c8AfterMove : CanvasState × SelectState :=
  selOnMove c8AfterStart.1 c8AfterStart.2 ⟨15, 5⟩

/-- `SelectTool.onEnd`. -/
def c8AfterEnd : CanvasState × SelectState :=
  selOnEnd c8AfterMove.1 c8AfterMove.2

/-- C8 (code bug): dragging the line by (5, 5) with the select tool
moves only its bounds origin — `x`/`y` become 5 while the rendered
endpoints stay `(0,0)–(20,0)` because `onMove` never updates
`startX/startY/endX/endY` — although `Line.move` (shown in the second
conjunct) would translate the endpoints.  The history parts of the
claim do hold: `onMove` pushes no snapshot and `onEnd` pushes exactly
one. -/
theorem c8_select_drag_bug :
    ((c8AfterMove.1.elements.getD 0 (mkBase noOpts 0)).x = 5 ∧
     (c8AfterMove.1.elements.getD 0 (mkBase noOpts 0)).y = 5 ∧
     (c8AfterMove.1.elements.getD 0 (mkBase noOpts 0)).kind = ElKind.line 0 0 20 0) ∧
    (elMove c8line 5 5).kind = ElKind.line 5 5 25 5 ∧
    c8AfterMove.1.history = c8canvas.history ∧
    c8AfterEnd.1.history.length = c8canvas.history.length + 1 := by
  norm_num [c8AfterEnd, c8AfterMove, c8AfterStart, c8canvas, c8line, selOnStart, selOnMove,
            selOnEnd, selectIdle, getElementAt, screenToCanvas, containsPt, segDistSq, distSq,
            clamp, selectElement, modifyAt, mkLine, mkBase, noOpts, jsOrQ, jsOrS,
            lineUpdateBounds, elMove, saveHistory, initCanvas, List.find?]

/-- C9 (amended): `FreehandTool.onMove` appends the current canvas
point iff it is at least 3 canvas units (squared: `9 ≤`) from the last
recorded point, updating the last-recorded point only then; `onEnd`
commits nothing with fewer than 3 captured points, commits the raw
path when exactly 3 points were captured (`FreehandPath.simplify` only
acts on strictly more than 3 points), and applies
Ramer-Douglas-Peucker with epsilon 2 before committing when more than
3 points were captured. -/
theorem c9_freehand_amended :
    (∀ (cv : CanvasState) (s : FreehandState) (p : Pt) (el : El) (lp : Pt),
        s.preview = some el → s.lastPoint = some lp →
        (fhOnMove cv s p).preview =
          some (if 9 ≤ distSq lp (screenToCanvas cv.transform p)
                then fhAddPoint el (screenToCanvas cv.transform p) else el) ∧
        (fhOnMove cv s p).lastPoint =
          some (if 9 ≤ distSq lp (screenToCanvas cv.transform p)
                then screenToCanvas cv.transform p else lp)) ∧
    (∀ (cv : CanvasState) (s : FreehandState) (el : El),
        s.preview = some el →
        (elPtsLen el ≤ 2 → (fhOnEnd cv s).1 = cv) ∧
        (elPtsLen el = 3 → (fhOnEnd cv s).1 = addElement cv el) ∧
        (3 < elPtsLen el →
          (fhOnEnd cv s).1 =
            addElement cv { el with kind := ElKind.freehand (simplifyPoints (elPts el) 2) })) := by
  constructor
  · intro cv s p el lp hprev hlast
    unfold fhOnMove
    simp only [hprev, hlast]
    split_ifs with hd <;> simp
  · intro cv s el hprev
    refine ⟨?_, ?_, ?_⟩
    · intro hle
      simp only [fhOnEnd, hprev]
      rw [if_neg (by omega)]
    · intro h3
      simp only [fhOnEnd, hprev]
      rw [if_pos (by omega)]
      congr 1
      unfold elSimplify
      cases hk : el.kind <;> simp_all [elPtsLen]
    · intro h3
      simp only [fhOnEnd, hprev]
      rw [if_pos (by omega)]
      congr 1
      unfold elSimplify elPts
      cases hk : el.kind <;> simp_all [elPtsLen]

/-- An in-progress freehand drag holding the single anchor point. -/
def c9OnePointState : FreehandState :=
  ⟨some ⟨0, 0⟩, some ⟨0, 0⟩,
   some (mkFreehand { noOpts with points := some [(⟨0, 0⟩ : Pt)] } 0), some ⟨0, 0⟩⟩

theorem c9_freehand_amended_witness :
    (fhOnEnd initCanvas c9OnePointState).1 = initCanvas ∧
    (fhOnMove initCanvas c9OnePointState ⟨4, 0⟩).preview =
      some (if 9 ≤ distSq ⟨0, 0⟩ (screenToCanvas initCanvas.transform ⟨4, 0⟩)
            then fhAddPoint (mkFreehand { noOpts with points := some [(⟨0, 0⟩ : Pt)] } 0)
                   (screenToCanvas initCanvas.transform ⟨4, 0⟩)
            else mkFreehand { noOpts with points := some [(⟨0, 0⟩ : Pt)] } 0) :=
  ⟨(c9_freehand_amended.2 initCanvas c9OnePointState
      (mkFreehand { noOpts with points := some [(⟨0, 0⟩ : Pt)] } 0) rfl).1
      (by norm_num [elPtsLen, mkFreehand, noOpts, jsOrPts, fhUpdateBounds]),
   (c9_freehand_amended.1 initCanvas c9OnePointState ⟨4, 0⟩
      (mkFreehand { noOpts with points := some [(⟨0, 0⟩ : Pt)] } 0) ⟨0, 0⟩ rfl rfl).1⟩

/-- The C9 drag: anchor (0,0), then moves to (4,0) and (8,0), capturing
three collinear points, then `onEnd`. -/
def c9AfterDrag : CanvasState × FreehandState :=
  fhOnEnd initCanvas
    (fhOnMove initCanvas
      (fhOnMove initCanvas (fhOnStart initCanvas 0 defaultStyle ⟨0, 0⟩).2 ⟨4, 0⟩) ⟨8, 0⟩)

lemma saveHistory_elements (s : CanvasState) : (saveHistory s).elements = s.elements := by
  simp only [saveHistory]
  split_ifs <;> rfl

lemma addElement_elements (s : CanvasState) (e : El) :
    (addElement s e).elements = s.elements ++ [e] := by
  simp only [addElement, saveHistory_elements]

set_option maxRecDepth 4000 in
/-- C9 (counterexample to the claim as stated): the drag captures
exactly 3 points, and `onEnd` commits them verbatim —
`FreehandPath.simplify` refuses to run on a 3-point path — although
Ramer-Douglas-Peucker with epsilon 2 applied to those captured points
would collapse the collinear triple to its 2 endpoints. -/
theorem c9_counterexample :
    (c9AfterDrag.1.elements.map elPts) = [[⟨0, 0⟩, ⟨4, 0⟩, ⟨8, 0⟩]] ∧
    simplifyPoints [⟨0, 0⟩, ⟨4, 0⟩, ⟨8, 0⟩] 2 = [⟨0, 0⟩, ⟨8, 0⟩] := by
  constructor
  · norm_num [c9AfterDrag, fhOnStart, fhOnMove, fhOnEnd, mkFreehand, mkBase, noOpts, styleOpts,
              defaultStyle, jsOrPts, fhUpdateBounds, fhAddPoint, screenToCanvas, initCanvas,
              distSq, elPtsLen, elPts, elSimplify, addElement_elements,
              ptsMinX, ptsMinY, ptsMaxX, ptsMaxY]
  · have hms : maxSeg [(⟨0, 0⟩ : Pt), ⟨4, 0⟩, ⟨8, 0⟩] 0 2 = (0, 0) := by
      norm_num [maxSeg, maxSegStep, segDistSq, distSq, clamp, List.range']
    have h1 : simplifyPoints [(⟨0, 0⟩ : Pt), ⟨4, 0⟩, ⟨8, 0⟩] 2 =
        rdpAux [(⟨0, 0⟩ : Pt), ⟨4, 0⟩, ⟨8, 0⟩] 2 0 2 := by
      norm_num [simplifyPoints]
    rw [h1, rdpAux.eq_def, hms]
    norm_num [List.getD]

end GestureCanvas
